import Mathlib

/-!
# Verification of the E.164 phone normalization core

Shallow embedding of the phone normalization utility
(`normalizePhoneNumber` and its registry) and of the realtime validator
(`validatePhoneRealtime` from the phone input component), together with
theorems settling the specification claims about them.

Strings are modelled as `List Char`; the JavaScript string operations
(`trim`, `replace(/\D/g,'')`, `startsWith`, `slice`, `toUpperCase`) are
modelled by the corresponding list operations on characters.
-/

namespace Phone

/-- Registry entry: one supported country with its numbering constraints.
Mirrors the record type of `COUNTRY_CALLING_CODES`. -/
structure Country where
  callingCode : List Char
  alpha2 : List Char
  alpha3 : List Char
  name : List Char
  minNationalLength : Nat
  maxNationalLength : Nat
deriving DecidableEq, Repr

/-- Portugal registry entry. -/
def PT : Country :=
  ⟨"+351".data, "PT".data, "PRT".data, "Portugal".data, 9, 9⟩

/-- United Kingdom registry entry. -/
def GB : Country :=
  ⟨"+44".data, "GB".data, "GBR".data, "United Kingdom".data, 10, 10⟩

/-- South Africa registry entry. -/
def ZA : Country :=
  ⟨"+27".data, "ZA".data, "ZAF".data, "South Africa".data, 9, 9⟩

/-- Thailand registry entry. -/
def TH : Country :=
  ⟨"+66".data, "TH".data, "THA".data, "Thailand".data, 9, 9⟩

/-- United States registry entry. -/
def US : Country :=
  ⟨"+1".data, "US".data, "USA".data, "United States".data, 10, 10⟩

/-- The registry `COUNTRY_CALLING_CODES`, an association list from alpha-2
key to country data, in the source's declaration order. -/
def COUNTRY_CALLING_CODES : List (List Char × Country) :=
  [("PT".data, PT), ("GB".data, GB), ("ZA".data, ZA), ("TH".data, TH), ("US".data, US)]

/-- The list of registry values. -/
def registryCountries : List Country :=
  COUNTRY_CALLING_CODES.map Prod.snd

/-- `country.callingCode.replace('+','')`: the calling code's bare digits. -/
def callingDigits (c : Country) : List Char :=
  c.callingCode.filter (fun ch => ch != '+')

/-- Association-list lookup (string-keyed record access in the source). -/
def lookupAssoc (key : List Char) : List (List Char × Country) → Option Country
  | [] => none
  | (k, v) :: rest => if key = k then some v else lookupAssoc key rest

/-- Reverse lookup table `CALLING_CODE_TO_COUNTRY`: calling-code digits to
country data, built from the registry values in order. -/
def CALLING_CODE_TO_COUNTRY : List (List Char × Country) :=
  COUNTRY_CALLING_CODES.map (fun p => (callingDigits p.2, p.2))

/-- `SORTED_CALLING_CODES`: the registry's calling-code digit strings sorted
by length, longest first (JavaScript's stable sort on the declaration
order 351, 44, 27, 66, 1). -/
def SORTED_CALLING_CODES : List (List Char) :=
  ["351".data, "44".data, "27".data, "66".data, "1".data]

/-- The failure codes of `PhoneNormalizationError`. -/
inductive ErrorCode where
  | INVALID_INPUT
  | TOO_SHORT
  | TOO_LONG
  | INVALID_FORMAT
  | COUNTRY_MISMATCH
deriving DecidableEq, Repr

/-- The success payload `PhoneNormalizationResult`. -/
structure PhoneNormalizationResult where
  e164 : List Char
  phoneCode : List Char
  contactNumber : List Char
  phoneCountryCode : List Char
deriving DecidableEq, Repr

/-- `PhoneNormalizationOutput`: success or failure with message and code. -/
inductive PhoneNormalizationOutput where
  | success (r : PhoneNormalizationResult)
  | failure (error : List Char) (code : ErrorCode)
deriving DecidableEq, Repr

/-- `s.toUpperCase()` on the character list model. -/
def upper (s : List Char) : List Char :=
  s.map Char.toUpper

/-- `s.trim()`: drop whitespace from both ends. -/
def trim (s : List Char) : List Char :=
  ((s.dropWhile Char.isWhitespace).reverse.dropWhile Char.isWhitespace).reverse

/-- `s.startsWith('+')`. -/
def startsWithPlus (s : List Char) : Bool :=
  match s with
  | c :: _ => c == '+'
  | [] => false

/-- `findCallingCodePrefix`: first (hence longest) registered calling code
whose digits are a prefix of the digit string. -/
def findCallingCodePrefix (digits : List Char) : Option (List Char) :=
  SORTED_CALLING_CODES.find? (fun code => code.isPrefixOf digits)

/-- Step 2 of the normalizer: the trunk-zero stripping loop
`while (n.startsWith('0') && n.length > min) n = n.slice(1)`. -/
def stripTrunkZeros (minLen : Nat) : List Char → List Char
  | [] => []
  | c :: rest =>
    if c = '0' ∧ minLen < rest.length + 1 then stripTrunkZeros minLen rest
    else c :: rest

/-- The TOO_SHORT error message built by the normalizer. -/
def tooShortMessage (c : Country) : List Char :=
  "Phone number too short for ".data ++ c.name ++
    ". Expected at least ".data ++ (Nat.repr c.minNationalLength).data ++ " digits.".data

/-- The TOO_LONG error message built by the normalizer. -/
def tooLongMessage (c : Country) : List Char :=
  "Phone number too long for ".data ++ c.name ++
    ". Expected at most ".data ++ (Nat.repr c.maxNationalLength).data ++ " digits.".data

/-- Step 1b of the normalizer: choose the detected country and candidate
national number from the cleaned digits, the recorded `+` flag, and the
hinted country. A detected calling code overrides the hint.
(In the source, `CALLING_CODE_TO_COUNTRY[matchedCode]` is a total record
access because every matched code is a table key; the `none` arm below is
unreachable and kept only to make the match total.) -/
def detectAndNational (cleaned : List Char) (hasPlus : Bool) (countryData : Country) :
    Country × List Char :=
  if hasPlus then
    match findCallingCodePrefix cleaned with
    | some code =>
      match lookupAssoc code CALLING_CODE_TO_COUNTRY with
      | some d => (d, cleaned.drop code.length)
      | none => (countryData, cleaned.drop code.length)
    | none => (countryData, cleaned)
  else (countryData, cleaned)

/-- Steps 3-5 of the normalizer, applied after trunk-zero stripping:
length validation (with the embedded-calling-code repair attempt),
E.164 construction, and the final 6-15 total digit check. -/
def afterStrip (detected : Country) (n1 : List Char) : PhoneNormalizationOutput :=
  if n1.length < detected.minNationalLength then
    .failure (tooShortMessage detected) .TOO_SHORT
  else
    let n2 :=
      if detected.maxNationalLength < n1.length ∧
          detected.minNationalLength < n1.length ∧
          (callingDigits detected).isPrefixOf n1 = true then
        n1.drop (callingDigits detected).length
      else n1
    if detected.maxNationalLength < n2.length then
      .failure (tooLongMessage detected) .TOO_LONG
    else
      let e164 := detected.callingCode ++ n2
      if (e164.filter Char.isDigit).length < 6 ∨ 15 < (e164.filter Char.isDigit).length then
        .failure "Invalid phone number format".data .INVALID_FORMAT
      else
        .success ⟨e164, detected.callingCode, n2, detected.alpha2⟩

/-- Steps 2-5 of the normalizer for a given detected country and candidate
national number. -/
def finishNormalization (detected : Country) (nationalNumber : List Char) :
    PhoneNormalizationOutput :=
  afterStrip detected (stripTrunkZeros detected.minNationalLength nationalNumber)

/-- The normalizer body once the country hint has been resolved to registry
data: trim, record the leading `+`, strip non-digits, detect an embedded
calling code, then validate and build the E.164 value. -/
def normalizeResolved (rawPhone : List Char) (countryData : Country) :
    PhoneNormalizationOutput :=
  let trimmed := trim rawPhone
  let hasPlus := startsWithPlus trimmed
  let cleaned := trimmed.filter Char.isDigit
  if cleaned.length = 0 then
    .failure "Phone number contains no digits".data .INVALID_INPUT
  else
    let dn := detectAndNational cleaned hasPlus countryData
    finishNormalization dn.1 dn.2

/-- `normalizePhoneNumber`. The source's unknown-hint fallback is the
recursive call `normalizePhoneNumber(rawPhone, 'PT')`; since that call
repeats the same emptiness check on the same `rawPhone` and the lookup of
`"PT"` yields the `PT` entry, the recursion unfolds to the `none` arm
below. A `null`/`undefined` first argument takes the same INVALID_INPUT
branch as the empty string and is therefore not modelled separately. -/
def normalizePhoneNumber (rawPhone selectedCountryAlpha2 : List Char) :
    PhoneNormalizationOutput :=
  if rawPhone = [] then
    .failure "Phone number is required".data .INVALID_INPUT
  else
    match lookupAssoc (upper selectedCountryAlpha2) COUNTRY_CALLING_CODES with
    | some countryData => normalizeResolved rawPhone countryData
    | none => normalizeResolved rawPhone PT

/-- Does an output carry the COUNTRY_MISMATCH failure code? -/
def isCountryMismatch : PhoneNormalizationOutput → Bool
  | .failure _ .COUNTRY_MISMATCH => true
  | _ => false

/-- `PhoneValidationState` of the phone input component. -/
structure PhoneValidationState where
  isValid : Bool
  isPartiallyValid : Bool
  message : Option (List Char)
  digitsEntered : Nat
  digitsRequired : Nat
deriving DecidableEq, Repr

/-- `validatePhoneRealtime` from the phone input component: classify a
partially typed input. Subtractions are on `Int`, matching JavaScript
number arithmetic on digit counts. -/
def validatePhoneRealtime (rawPhone countryAlpha2 : List Char) : PhoneValidationState :=
  let digitsOnly := rawPhone.filter Char.isDigit
  match lookupAssoc (upper countryAlpha2) COUNTRY_CALLING_CODES with
  | none =>
    ⟨false, false, some "Invalid country".data, digitsOnly.length, 9⟩
  | some countryData =>
    let digitsRequired := countryData.minNationalLength
    let maxDigits := countryData.maxNationalLength
    if digitsOnly.length < 3 then
      ⟨false, true, none, digitsOnly.length, digitsRequired⟩
    else
      match normalizePhoneNumber rawPhone countryAlpha2 with
      | .success result =>
        ⟨true, true, none, result.contactNumber.length, digitsRequired⟩
      | .failure err code =>
        let digitsEntered := digitsOnly.length
        if code = .TOO_SHORT then
          let needed : Int := (digitsRequired : Int) - (digitsEntered : Int)
          ⟨false, true,
            some (if needed = 1 then "1 more digit needed".data
                  else (Int.repr needed).data ++ " more digits needed".data),
            digitsEntered, digitsRequired⟩
        else if code = .TOO_LONG then
          let excess : Int := (digitsEntered : Int) - (maxDigits : Int)
          ⟨false, false,
            some (if excess = 1 then "Remove 1 digit".data
                  else "Remove ".data ++ (Int.repr excess).data ++ " digits".data),
            digitsEntered, digitsRequired⟩
        else
          ⟨false, false, some (if err = [] then "Invalid format".data else err),
            digitsEntered, digitsRequired⟩

end Phone

namespace Phone

/-- Sanity: the hard-coded `SORTED_CALLING_CODES` is exactly the registry's
calling-code digit strings, ordered by non-increasing length. -/
theorem sorted_calling_codes_spec :
    SORTED_CALLING_CODES.Perm (COUNTRY_CALLING_CODES.map (fun p => callingDigits p.2)) ∧
    SORTED_CALLING_CODES.Pairwise (fun a b => b.length ≤ a.length) := by
  decide

/-- Sanity: the worked example of the spec. -/
theorem example_pt_spaces :
    normalizePhoneNumber "+351 912 345 678".data "PT".data =
      .success ⟨"+351912345678".data, "+351".data, "912345678".data, "PT".data⟩ := by
  decide

/-- C1: the Success invariant fails on the code. On input "3519123456" with
hint "PT", normalization succeeds with contactNumber "9123456" of length 7,
below the resolved country PT's minNationalLength 9: the embedded
calling-code repair strips "351" from an over-long national number without
re-checking the minimum length. -/
theorem C1_min_length_violation :
    normalizePhoneNumber "3519123456".data "PT".data =
      .success ⟨"+3519123456".data, "+351".data, "9123456".data, "PT".data⟩ ∧
    lookupAssoc "PT".data COUNTRY_CALLING_CODES = some PT ∧
    "9123456".data.length < PT.minNationalLength := by
  decide

/-- C2: idempotence fails on the code. normalizePhoneNumber("3519123456","PT")
succeeds with e164 "+3519123456", but renormalizing that e164 (here with
hint "PT") fails with TOO_SHORT instead of reproducing the same e164,
because the first call's contactNumber was left below the minimum length. -/
theorem C2_not_idempotent :
    normalizePhoneNumber "3519123456".data "PT".data =
      .success ⟨"+3519123456".data, "+351".data, "9123456".data, "PT".data⟩ ∧
    normalizePhoneNumber "+3519123456".data "PT".data =
      .failure (tooShortMessage PT) .TOO_SHORT := by
  decide

/-- C3 counterexample: normalizePhoneNumber("+1234567890123456","PT") does
not return INVALID_FORMAT; the detected country is US ("+1"), the remaining
15 digits exceed maxNationalLength 10, and the result is TOO_LONG. -/
theorem C3_counterexample :
    normalizePhoneNumber "+1234567890123456".data "PT".data =
      .failure (tooLongMessage US) .TOO_LONG ∧
    ErrorCode.TOO_LONG ≠ ErrorCode.INVALID_FORMAT := by
  decide

/-- C3 amended: normalizePhoneNumber("+1234567890123456","PT") returns a
Failure with code TOO_LONG (for the detected country US). -/
theorem C3_too_long :
    normalizePhoneNumber "+1234567890123456".data "PT".data =
      .failure (tooLongMessage US) .TOO_LONG := by
  decide

/-- C4 counterexample: on input "1" (one digit, fewer than 3) with the
unregistered hint "XX", validatePhoneRealtime returns the Invalid-country
classification (isPartiallyValid false, message "Invalid country"), not the
EMPTY classification: the unknown-country branch precedes the digit-count
check. -/
theorem C4_counterexample :
    ("1".data.filter Char.isDigit).length < 3 ∧
    validatePhoneRealtime "1".data "XX".data =
      ⟨false, false, some "Invalid country".data, 1, 9⟩ := by
  decide

/-- C5 counterexample: normalizePhoneNumber("91234","PT") fails TOO_SHORT
with the missing digit count being 9 - 5 = 4, yet the failure message does
not even contain the character '4': it states the required minimum
("Expected at least 9 digits."), not the missing count. -/
theorem C5_counterexample :
    normalizePhoneNumber "91234".data "PT".data =
      .failure (tooShortMessage PT) .TOO_SHORT ∧
    PT.minNationalLength - "91234".data.length = 4 ∧
    '4' ∉ tooShortMessage PT := by
  decide

/-- C8 counterexample: with country "US" and
validNational = "+351912345678" (which normalizes successfully, detecting
PT), prefixing "0" yields "0+351912345678"; removing the one leading zero
leaves 13 characters (12 digits), at least US's minNationalLength 10, yet
normalization of the zero-prefixed string fails with TOO_LONG instead of
succeeding with the same contactNumber. -/
theorem C8_counterexample :
    normalizePhoneNumber "+351912345678".data "US".data =
      .success ⟨"+351912345678".data, "+351".data, "912345678".data, "PT".data⟩ ∧
    US.minNationalLength ≤ (('0' :: "+351912345678".data).drop 1).length ∧
    US.minNationalLength ≤
      ((('0' :: "+351912345678".data).drop 1).filter Char.isDigit).length ∧
    normalizePhoneNumber ('0' :: "+351912345678".data) "US".data =
      .failure (tooLongMessage US) .TOO_LONG := by
  decide

/-- COUNTRY_MISMATCH is not produced by the length-validation phase. -/
theorem isCM_afterStrip (d : Country) (n1 : List Char) :
    isCountryMismatch (afterStrip d n1) = false := by
  unfold afterStrip
  dsimp only
  repeat' split
  all_goals rfl

/-- COUNTRY_MISMATCH is not produced by the resolved-country normalizer. -/
theorem isCM_normalizeResolved (raw : List Char) (c : Country) :
    isCountryMismatch (normalizeResolved raw c) = false := by
  unfold normalizeResolved
  dsimp only
  split
  · rfl
  · unfold finishNormalization
    exact isCM_afterStrip _ _

/-- C9: for every raw input and every country hint, normalizePhoneNumber
never returns a Failure whose code is COUNTRY_MISMATCH. -/
theorem C9_no_country_mismatch (raw hint : List Char) :
    isCountryMismatch (normalizePhoneNumber raw hint) = false := by
  unfold normalizePhoneNumber
  split
  · rfl
  · split
    · exact isCM_normalizeResolved _ _
    · exact isCM_normalizeResolved _ _

/-- C6: when the (uppercased) country hint is not a registry key, the
normalizer falls back to the fixed default country "PT": the result is
exactly that of normalizePhoneNumber with hint "PT", and no exception
arises (the function is total). -/
theorem C6_unknown_hint_falls_back_to_PT (raw h : List Char)
    (hnone : lookupAssoc (upper h) COUNTRY_CALLING_CODES = none) :
    normalizePhoneNumber raw h = normalizePhoneNumber raw "PT".data := by
  have hpt : lookupAssoc (upper "PT".data) COUNTRY_CALLING_CODES = some PT := by decide
  unfold normalizePhoneNumber
  rw [hnone, hpt]

/-- Witness for C6 at raw "912345678" and the unregistered hint "XX". -/
theorem C6_witness :
    normalizePhoneNumber "912345678".data "XX".data =
      normalizePhoneNumber "912345678".data "PT".data :=
  C6_unknown_hint_falls_back_to_PT "912345678".data "XX".data (by decide)

/-- A character code in the upper-case letter range is fixed by toUpper. -/
theorem toUpper_fixed_of_upper {m : Nat} (h1 : 65 ≤ m) (h2 : m ≤ 90) :
    (Char.ofNat m).toUpper = Char.ofNat m := by
  interval_cases m <;> decide

/-- Char.toUpper is idempotent. -/
theorem toUpper_toUpper (c : Char) : c.toUpper.toUpper = c.toUpper := by
  by_cases h : Char.toNat c ≥ 97 ∧ Char.toNat c ≤ 122
  · have h2 : c.toUpper = Char.ofNat (Char.toNat c - 32) := by
      simp only [Char.toUpper]
      rw [if_pos h]
    rw [h2]
    exact toUpper_fixed_of_upper (by omega) (by omega)
  · have h2 : c.toUpper = c := by
      simp only [Char.toUpper]
      rw [if_neg h]
    rw [h2, h2]

/-- toUpperCase is idempotent on strings. -/
theorem upper_idem (s : List Char) : upper (upper s) = upper s := by
  induction s with
  | nil => rfl
  | cons c t ih =>
    show Char.toUpper (Char.toUpper c) :: upper (upper t) = Char.toUpper c :: upper t
    rw [toUpper_toUpper, ih]

/-- C10: the country hint is case-insensitive; normalizePhoneNumber gives
exactly the same result on a hint and on its uppercased form, since the
hint is only ever used uppercased for the registry lookup. -/
theorem C10_hint_case_insensitive (raw h : List Char) :
    normalizePhoneNumber raw h = normalizePhoneNumber raw (upper h) := by
  unfold normalizePhoneNumber
  rw [upper_idem]

/-- C4 amended: for every raw input with fewer than 3 digits and every
country hint whose uppercased form is a registry key, validatePhoneRealtime
returns the EMPTY classification: isValid false, isPartiallyValid true,
message none, with the resolved country's minimum as digitsRequired. -/
theorem C4_empty_below_three_digits (raw h : List Char) (c : Country)
    (hc : lookupAssoc (upper h) COUNTRY_CALLING_CODES = some c)
    (hlt : (raw.filter Char.isDigit).length < 3) :
    validatePhoneRealtime raw h =
      ⟨false, true, none, (raw.filter Char.isDigit).length, c.minNationalLength⟩ := by
  unfold validatePhoneRealtime
  rw [hc]
  dsimp only
  rw [if_pos hlt]

/-- Witness for C4 at raw "1" (one digit) and hint "PT". -/
theorem C4_witness :
    validatePhoneRealtime "1".data "PT".data =
      ⟨false, true, none, ("1".data.filter Char.isDigit).length, PT.minNationalLength⟩ :=
  C4_empty_below_three_digits "1".data "PT".data PT (by decide) (by decide)

/-- A successful association-list lookup returns one of the list's values. -/
theorem lookupAssoc_mem_values {key : List Char} {l : List (List Char × Country)}
    {c : Country} (h : lookupAssoc key l = some c) : c ∈ l.map Prod.snd := by
  induction l with
  | nil => simp [lookupAssoc] at h
  | cons p rest ih =>
    obtain ⟨k, v⟩ := p
    rw [lookupAssoc] at h
    by_cases hk : key = k
    · rw [if_pos hk] at h
      injection h with h
      subst h
      exact List.mem_cons_self _ _
    · rw [if_neg hk] at h
      exact List.mem_cons_of_mem _ (ih h)

/-- The detected country of step 1b is always a registry country when the
hinted country is. -/
theorem detect_fst_mem (cleaned : List Char) (hp : Bool) (c0 : Country)
    (h : c0 ∈ registryCountries) :
    (detectAndNational cleaned hp c0).1 ∈ registryCountries := by
  unfold detectAndNational
  split
  · cases hfind : findCallingCodePrefix cleaned with
    | none => exact h
    | some code =>
      dsimp only
      cases hlook : lookupAssoc code CALLING_CODE_TO_COUNTRY with
      | none => exact h
      | some d =>
        have hmem := lookupAssoc_mem_values hlook
        rw [show CALLING_CODE_TO_COUNTRY.map Prod.snd = registryCountries from by decide]
          at hmem
        exact hmem
  · exact h

/-- A TOO_SHORT failure of the length-validation phase carries exactly the
too-short message of the detected country. -/
theorem afterStrip_too_short (d : Country) (n1 msg : List Char)
    (h : afterStrip d n1 = .failure msg .TOO_SHORT) : msg = tooShortMessage d := by
  unfold afterStrip at h
  dsimp only at h
  repeat' split at h
  all_goals
    first
    | (injection h with h1 h2; exact h1.symm)
    | (injection h with h1 h2; exact absurd h2 (by decide))
    | exact PhoneNormalizationOutput.noConfusion h

/-- A TOO_SHORT failure of the resolved normalizer carries the too-short
message of some registry country. -/
theorem resolved_too_short (raw : List Char) (c : Country) (msg : List Char)
    (hc : c ∈ registryCountries)
    (h : normalizeResolved raw c = .failure msg .TOO_SHORT) :
    ∃ d ∈ registryCountries, msg = tooShortMessage d := by
  unfold normalizeResolved at h
  dsimp only at h
  split at h
  · injection h with h1 h2
    exact absurd h2 (by decide)
  · unfold finishNormalization at h
    exact ⟨_, detect_fst_mem _ _ _ hc, afterStrip_too_short _ _ _ h⟩

/-- C5 amended: every TOO_SHORT failure's message is the fixed too-short
message of some registry country, stating the country name and the
required minimum number of digits (not the missing digit count). -/
theorem C5_too_short_message (raw hint msg : List Char)
    (h : normalizePhoneNumber raw hint = .failure msg .TOO_SHORT) :
    ∃ d ∈ registryCountries, msg = tooShortMessage d := by
  unfold normalizePhoneNumber at h
  split at h
  · injection h with h1 h2
    exact absurd h2 (by decide)
  · split at h
    · rename_i cd hcd
      exact resolved_too_short _ _ _ (lookupAssoc_mem_values hcd) h
    · exact resolved_too_short _ _ _ (by decide) h

/-- Witness for C5 at raw "91234" and hint "PT". -/
theorem C5_witness :
    ∃ d ∈ registryCountries, tooShortMessage PT = tooShortMessage d :=
  C5_too_short_message "91234".data "PT".data (tooShortMessage PT) (by decide)

/-- A digit character is not whitespace. -/
theorem not_whitespace_of_digit {c : Char} (h : c.isDigit = true) :
    c.isWhitespace = false := by
  rcases hw : c.isWhitespace with _ | _
  · rfl
  · exfalso
    simp only [Char.isWhitespace, Bool.or_eq_true, decide_eq_true_eq] at hw
    rcases hw with ((h1 | h1) | h1) | h1 <;> subst h1 <;> exact absurd h (by decide)

/-- A digit character is not the plus sign. -/
theorem ne_plus_of_digit {c : Char} (h : c.isDigit = true) : (c == '+') = false := by
  rcases heq : c == '+' with _ | _
  · rfl
  · exfalso
    have hc : c = '+' := beq_iff_eq.mp heq
    subst hc
    exact absurd h (by decide)

/-- Dropping leading whitespace from an all-digit string is the identity. -/
theorem dropWhile_ws_eq_self {s : List Char} (h : ∀ ch ∈ s, ch.isDigit = true) :
    s.dropWhile Char.isWhitespace = s := by
  cases s with
  | nil => rfl
  | cons c t =>
    have hw := not_whitespace_of_digit (h c (List.mem_cons_self c t))
    simp [List.dropWhile_cons, hw]

/-- Trimming an all-digit string is the identity. -/
theorem trim_eq_self_of_digits {s : List Char} (h : ∀ ch ∈ s, ch.isDigit = true) :
    trim s = s := by
  unfold trim
  rw [dropWhile_ws_eq_self h]
  rw [dropWhile_ws_eq_self (by intro ch hch; exact h ch (List.mem_reverse.mp hch))]
  exact List.reverse_reverse s

/-- An all-digit string does not start with a plus sign. -/
theorem startsWithPlus_eq_false_of_digits {s : List Char}
    (h : ∀ ch ∈ s, ch.isDigit = true) : startsWithPlus s = false := by
  cases s with
  | nil => rfl
  | cons c t =>
    show (c == '+') = false
    exact ne_plus_of_digit (h c (List.mem_cons_self c t))

/-- Trunk-zero stripping leaves a string of length at most the minimum
untouched. -/
theorem stripTrunkZeros_eq_self {m : Nat} {n : List Char} (h : n.length ≤ m) :
    stripTrunkZeros m n = n := by
  cases n with
  | nil => rfl
  | cons c rest =>
    have hlen : rest.length + 1 ≤ m := by simpa using h
    rw [stripTrunkZeros, if_neg]
    rintro ⟨-, hlt⟩
    omega

/-- Trunk-zero stripping removes a leading zero whenever the remainder is
at least the minimum length. -/
theorem stripTrunkZeros_zero_cons {m : Nat} {v : List Char} (h : m ≤ v.length) :
    stripTrunkZeros m ('0' :: v) = stripTrunkZeros m v := by
  rw [stripTrunkZeros, if_pos ⟨rfl, by omega⟩]

/-- Numeric facts true of every registry entry. -/
theorem registry_facts {c : Country} (h : c ∈ registryCountries) :
    c.minNationalLength ≤ c.maxNationalLength ∧ 9 ≤ c.minNationalLength ∧
    6 ≤ (c.callingCode.filter Char.isDigit).length + c.minNationalLength ∧
    (c.callingCode.filter Char.isDigit).length + c.maxNationalLength ≤ 15 := by
  have h5 : c = PT ∨ c = GB ∨ c = ZA ∨ c = TH ∨ c = US := by
    simpa [registryCountries, COUNTRY_CALLING_CODES] using h
  rcases h5 with rfl | rfl | rfl | rfl | rfl <;> decide

/-- For a registry country, an all-digit input of exactly the minimum
national length normalizes successfully with itself as contact number. -/
theorem normalizeResolved_exact_min {c : Country} {s : List Char}
    (hc : c ∈ registryCountries)
    (hdig : ∀ ch ∈ s, ch.isDigit = true)
    (hlen : s.length = c.minNationalLength) :
    normalizeResolved s c =
      .success ⟨c.callingCode ++ s, c.callingCode, s, c.alpha2⟩ := by
  obtain ⟨hminmax, h9, hlo, hhi⟩ := registry_facts hc
  have htrim : trim s = s := trim_eq_self_of_digits hdig
  have hfil : s.filter Char.isDigit = s := List.filter_eq_self.mpr hdig
  have hplus : startsWithPlus s = false := startsWithPlus_eq_false_of_digits hdig
  unfold normalizeResolved
  dsimp only
  rw [htrim, hfil, hplus]
  rw [if_neg (by omega : ¬ s.length = 0)]
  have hdn : detectAndNational s false c = (c, s) := rfl
  rw [hdn]
  unfold finishNormalization
  rw [stripTrunkZeros_eq_self (le_of_eq hlen)]
  unfold afterStrip
  dsimp only
  rw [if_neg (by omega : ¬ s.length < c.minNationalLength)]
  rw [if_neg (by rintro ⟨h1, -, -⟩; omega :
    ¬ (c.maxNationalLength < s.length ∧ c.minNationalLength < s.length ∧
       (callingDigits c).isPrefixOf s = true))]
  rw [if_neg (by omega : ¬ c.maxNationalLength < s.length)]
  rw [List.filter_append, hfil, List.length_append]
  rw [if_neg (by omega :
    ¬ ((c.callingCode.filter Char.isDigit).length + s.length < 6 ∨
       15 < (c.callingCode.filter Char.isDigit).length + s.length))]

/-- The registry lookup of an entry's own (already upper-case) key finds
that entry. -/
theorem lookup_upper_of_mem {key : List Char} {c : Country}
    (hmem : (key, c) ∈ COUNTRY_CALLING_CODES) :
    lookupAssoc (upper key) COUNTRY_CALLING_CODES = some c := by
  simp only [COUNTRY_CALLING_CODES, List.mem_cons, List.not_mem_nil, or_false,
    Prod.mk.injEq] at hmem
  rcases hmem with ⟨h1, h2⟩ | ⟨h1, h2⟩ | ⟨h1, h2⟩ | ⟨h1, h2⟩ | ⟨h1, h2⟩ <;>
    subst h1 <;> subst h2 <;> decide

/-- C7: for every registry entry and every string of exactly
minNationalLength digit characters, normalization under that country's key
succeeds and the contact number is the input itself, of length exactly
minNationalLength. -/
theorem C7_exact_min_succeeds (key : List Char) (c : Country) (s : List Char)
    (hmem : (key, c) ∈ COUNTRY_CALLING_CODES)
    (hdig : ∀ ch ∈ s, ch.isDigit = true)
    (hlen : s.length = c.minNationalLength) :
    ∃ r, normalizePhoneNumber s key = .success r ∧
      r.contactNumber = s ∧ r.contactNumber.length = c.minNationalLength := by
  have hc : c ∈ registryCountries := List.mem_map_of_mem Prod.snd hmem
  have hlook : lookupAssoc (upper key) COUNTRY_CALLING_CODES = some c :=
    lookup_upper_of_mem hmem
  have h9 := (registry_facts hc).2.1
  have hne : s ≠ [] := by
    intro hnil
    subst hnil
    simp at hlen
    omega
  unfold normalizePhoneNumber
  rw [if_neg hne, hlook]
  exact ⟨_, normalizeResolved_exact_min hc hdig hlen, rfl, hlen⟩

/-- Witness for C7 at the PT entry and the 9-digit string "912345678". -/
theorem C7_witness :
    ∃ r, normalizePhoneNumber "912345678".data "PT".data = .success r ∧
      r.contactNumber = "912345678".data ∧
      r.contactNumber.length = PT.minNationalLength :=
  C7_exact_min_succeeds "PT".data PT "912345678".data (by decide) (by decide) (by decide)

/-- C8 amended: for every registry entry and every all-digit string
validNational on which normalization under that country's key succeeds,
if removing the one added leading zero from "0" ++ validNational leaves at
least minNationalLength characters, then normalizing "0" ++ validNational
succeeds with the same contactNumber. (The original claim, over arbitrary
successful strings, fails when validNational contains a leading "+"; see
the counterexample.) -/
theorem C8_trunk_strip_digits (key : List Char) (c : Country) (valid : List Char)
    (r : PhoneNormalizationResult)
    (hmem : (key, c) ∈ COUNTRY_CALLING_CODES)
    (hdig : ∀ ch ∈ valid, ch.isDigit = true)
    (hsucc : normalizePhoneNumber valid key = .success r)
    (hkeep : c.minNationalLength ≤ (('0' :: valid).drop 1).length) :
    ∃ r2, normalizePhoneNumber ('0' :: valid) key = .success r2 ∧
      r2.contactNumber = r.contactNumber := by
  have hkeep' : c.minNationalLength ≤ valid.length := by simpa using hkeep
  have hc : c ∈ registryCountries := List.mem_map_of_mem Prod.snd hmem
  have h9 := (registry_facts hc).2.1
  have hlook : lookupAssoc (upper key) COUNTRY_CALLING_CODES = some c :=
    lookup_upper_of_mem hmem
  have hne : valid ≠ [] := by
    intro hnil
    subst hnil
    simp at hkeep'
    omega
  have hdig0 : ∀ ch ∈ ('0' :: valid), ch.isDigit = true := by
    intro ch hch
    rcases List.mem_cons.mp hch with rfl | hm
    · decide
    · exact hdig ch hm
  have heq : normalizePhoneNumber ('0' :: valid) key = normalizePhoneNumber valid key := by
    unfold normalizePhoneNumber
    rw [if_neg (List.cons_ne_nil '0' valid), if_neg hne, hlook]
    show normalizeResolved ('0' :: valid) c = normalizeResolved valid c
    unfold normalizeResolved
    dsimp only
    rw [trim_eq_self_of_digits hdig0, trim_eq_self_of_digits hdig,
        startsWithPlus_eq_false_of_digits hdig0, startsWithPlus_eq_false_of_digits hdig,
        List.filter_eq_self.mpr hdig0, List.filter_eq_self.mpr hdig]
    rw [if_neg (by simp : ¬ ('0' :: valid).length = 0),
        if_neg (by omega : ¬ valid.length = 0)]
    have hdn0 : detectAndNational ('0' :: valid) false c = (c, '0' :: valid) := rfl
    have hdn1 : detectAndNational valid false c = (c, valid) := rfl
    rw [hdn0, hdn1]
    unfold finishNormalization
    rw [stripTrunkZeros_zero_cons hkeep']
  rw [heq, hsucc]
  exact ⟨r, rfl, rfl⟩

/-- Witness for C8 at the PT entry and validNational "0912345678" (which
itself normalizes by stripping its own leading zero). -/
theorem C8_witness :
    ∃ r2, normalizePhoneNumber ('0' :: "0912345678".data) "PT".data = .success r2 ∧
      r2.contactNumber = "912345678".data :=
  C8_trunk_strip_digits "PT".data PT "0912345678".data
    ⟨"+351912345678".data, "+351".data, "912345678".data, "PT".data⟩
    (by decide) (by decide) (by decide) (by decide)

end Phone
